import Mathlib

/-!
Verification development for the asynchronous document-generation subsystem
of the EasyBewerbung backend (src/backend/app/tasks.py and
src/backend/app/api/endpoints/applications.py).

The Python code is shallowly embedded: database rows become Lean structures,
the Celery worker bodies become pure functions that thread the session state
explicitly and record every `db.commit()` of the task row in a trace, and the
external effects (template lookup, LLM call, disk write) become explicit
inputs describing each per-document outcome.  Machine integers are modelled
as `Nat`/`Int`; Python's `int((completed / total) * 100)` (two IEEE binary64
operations, then truncation) is modelled exactly, as round-to-nearest-even
dyadic rounding over `ℚ` — see `pyProgress`.
-/

/-! ### Python `str.replace` (all non-overlapping occurrences, left to right)

`String.replace` in core does not reduce in the kernel, so the same
algorithm is written with an explicit fuel argument (one unit per character
of the subject string suffices, because every step consumes at least one
character).  All call sites in the embedded code pass a non-empty pattern,
for which this agrees with Python's `str.replace`. -/

def replaceAllFuel (pat rep : List Char) : Nat → List Char → List Char
  | 0, s => s
  | _ + 1, [] => []
  | fuel + 1, c :: rest =>
    if pat ≠ [] ∧ pat.isPrefixOf (c :: rest) then
      rep ++ replaceAllFuel pat rep fuel ((c :: rest).drop pat.length)
    else
      c :: replaceAllFuel pat rep fuel rest

def pyReplace (s pat rep : String) : String :=
  ⟨replaceAllFuel pat.data rep.data s.data.length s.data⟩

/-! ### Prompt builder (tasks.py, `get_language_instruction` and
`generate_document_prompt_from_template`) -/

/-- Embeds the `language_instructions` dict of `get_language_instruction`
(tasks.py lines 53-62). -/
def language_instructions : List (String × String) :=
  [("de-CH", "Swiss German (Schweizerdeutsch) - CRITICAL: Use 'ss' instead of 'ß' (e.g., 'Strasse' not 'Straße', 'Grüsse' not 'Grüße', 'dass' not 'daß'). This is Swiss Standard German orthography."),
   ("de", "German (Standard German / Hochdeutsch) - Use standard German orthography including 'ß' where appropriate."),
   ("de-DE", "German (Germany) - Use standard German orthography including 'ß' where appropriate."),
   ("en", "English"),
   ("fr", "French (Français)"),
   ("it", "Italian (Italiano)"),
   ("es", "Spanish (Español)"),
   ("pt", "Portuguese (Português)")]

/-- Embeds `get_language_instruction` (tasks.py line 51): dict lookup with the
code itself as the default. -/
def get_language_instruction (lang_code : String) : String :=
  (language_instructions.lookup lang_code).getD lang_code

/-- Embeds the `cv_summary` computation of
`generate_document_prompt_from_template` (tasks.py line 106):
`cv_text[:500] + "..." if len(cv_text) > 500 else cv_text`. -/
def cv_summary_of (cv_text : String) : String :=
  if cv_text.length > 500 then String.mk (cv_text.data.take 500) ++ "..." else cv_text

/-- Embeds `generate_document_prompt_from_template` (tasks.py lines 66-123).
The values the Python function reads from the session are parameters here:
`doc_lang` is `application.documentation_language or user.documentation_language`
(line 74) and `reference_letters` is the joined reference-letter text, or the
default "No reference letters provided." when the user has none (lines 93-103).
The placeholder substitutions are in the exact order of lines 109-118. -/
def generate_document_prompt_from_template
    (prompt_template job_description cv_text doc_lang reference_letters : String) : String :=
  let language_instruction := get_language_instruction doc_lang
  let role := "professional career consultant and CV/resume expert"
  let task := "Help this candidate create compelling, honest, and effective job application documents"
  let instructions := "\n1. Be completely honest - NEVER invent skills, experiences, or qualifications\n2. Only use information that exists in the candidate's CV\n3. Optimize for the specific job requirements while staying truthful\n4. Use professional, clear language appropriate for the target role\n5. Highlight genuine strengths and relevant experience\n6. Structure content for maximum impact and readability"
  let cv_summary := cv_summary_of cv_text
  let prompt := prompt_template
  let prompt := pyReplace prompt "{job_description}" job_description
  let prompt := pyReplace prompt "{cv_text}" cv_text
  let prompt := pyReplace prompt "{cv_summary}" cv_summary
  let prompt := pyReplace prompt "{language}" language_instruction
  let prompt := pyReplace prompt "{company_profile_language}" language_instruction
  let prompt := pyReplace prompt "{role}" role
  let prompt := pyReplace prompt "{task}" task
  let prompt := pyReplace prompt "{instructions}" instructions
  let prompt := pyReplace prompt "{documentation_language}" language_instruction
  let prompt := pyReplace prompt "{reference_letters}" reference_letters
  prompt

/-! ### Generation-task worker (tasks.py, `generate_documents_task`) -/

/-- The task row (models.py `GenerationTask`, fields relevant to the worker). -/
structure GenTask where
  status : String
  progress : Nat
  total_docs : Nat
  completed_docs : Nat
  error_message : Option String
deriving DecidableEq, Repr

/-- The `GenerationTask` row as created by the endpoint
(applications.py lines 977-984). -/
def initialTask (n : Nat) : GenTask :=
  { status := "pending", progress := 0, total_docs := n, completed_docs := 0,
    error_message := none }

/-- A `GeneratedDocument` row (models.py lines 98-107, fields the worker sets). -/
structure GenDocument where
  application_id : Nat
  doc_type : String
  format : String
  storage_path : String
  content : String
deriving DecidableEq, Repr

/-- What the external effects do for one `doc_type` of the loop
(tasks.py lines 383-440).
`skip` is the `continue` taken when neither a configured template nor the
static fallback yields a prompt (lines 394-396 and 402-403); `success`
carries the LLM completion text and whether the best-effort disk write
succeeded (lines 411-420); `failure` is an exception raised while resolving
the template, building the prompt or invoking the LLM (lines 385-409),
caught by the per-document handler (lines 437-440). -/
inductive DocOutcome where
  | skip
  | success (content : String) (disk_ok : Bool)
  | failure (err : String)
deriving DecidableEq, Repr

/-- The `GeneratedDocument` row built at tasks.py lines 411-430: the storage
path is `generated/<user_id>/app_<application_id>_<doc_type>.txt`, replaced by
the marker `unpersisted:<doc_type>` when the disk write failed. -/
def docRow (user_id application_id : Nat) (doc_type content : String)
    (disk_ok : Bool) : GenDocument :=
  { application_id := application_id, doc_type := doc_type, format := "TEXT",
    storage_path :=
      if disk_ok then
        "generated/" ++ toString user_id ++ "/app_" ++ toString application_id
          ++ "_" ++ doc_type ++ ".txt"
      else "unpersisted:" ++ doc_type,
    content := content }

/-- The error message written at tasks.py line 439. -/
def failMsg (doc_type err : String) : String :=
  "Partial failure: Error generating " ++ doc_type ++ ": " ++ err

/-- Session state threaded through the per-document loop: the task row, the
`GeneratedDocument` rows added so far, and every committed snapshot of the
task row (one entry per `db.commit()` that wrote the task). -/
structure LoopSt where
  task : GenTask
  docs : List GenDocument
  trace : List GenTask
deriving DecidableEq, Repr

/-! ### The progress computation (tasks.py line 434)

Python evaluates `int((task.completed_docs / task.total_docs) * 100)` with
two IEEE binary64 operations: the true division of the two ints is correctly
rounded to a double (round to nearest, ties to even), the product with 100
(exactly representable) is correctly rounded again, and `int` truncates
toward zero.  This can differ from `floor(100 * completed / total)`: for
29 of 50 documents the doubles give `0.58 * 100 = 57.99999999999999`, so the
code persists 57 where the exact floor is 58.

`rndHE` is round-half-even to an integer; `fl x` is the value of rounding a
non-negative rational to the nearest dyadic with a 53-bit significand, by
rounding the scaled significand `x * 2^(52 - ⌊log2 x⌋)` half-even (when the
significand rounds up to `2^53` the value `2^(e+1)` is already the correctly
rounded result, so no renormalisation is needed for the value).  The
exponent is unbounded here, which agrees with binary64 whenever no overflow
or underflow occurs; at the call sites the quotient lies in `(0, 1]` with
`total_docs` a list length, far inside range.  `pyProgress` is the full
expression; `total = 0` (where Python would raise `ZeroDivisionError`) is
unreachable from the worker, because the loop body only runs when
`total_docs = len(doc_types) ≥ 1`. -/

def rndHE (x : ℚ) : ℤ :=
  if x - ⌊x⌋ < 1 / 2 then ⌊x⌋
  else if 1 / 2 < x - ⌊x⌋ then ⌊x⌋ + 1
  else if Even ⌊x⌋ then ⌊x⌋ else ⌊x⌋ + 1

def fl (x : ℚ) : ℚ :=
  (rndHE (x * 2 ^ ((52 : ℤ) - Int.log 2 x)) : ℚ) * 2 ^ (Int.log 2 x - 52)

def pyProgress (completed total : Nat) : Nat :=
  if total = 0 then 0
  else (⌊fl (fl ((completed : ℚ) / (total : ℚ)) * 100)⌋).toNat

theorem rndHE_floor_le (x : ℚ) : ⌊x⌋ ≤ rndHE x := by
  unfold rndHE
  split_ifs <;> omega

theorem rndHE_le_floor_add_one (x : ℚ) : rndHE x ≤ ⌊x⌋ + 1 := by
  unfold rndHE
  split_ifs <;> omega

theorem rndHE_eval (x : ℚ) (m : ℤ) (hf : ⌊x⌋ = m) (hlt : x - m < 1 / 2) :
    rndHE x = m := by
  unfold rndHE
  rw [hf, if_pos hlt]

theorem rndHE_mono (x y : ℚ) (h : x ≤ y) : rndHE x ≤ rndHE y := by
  rcases lt_or_le ⌊x⌋ ⌊y⌋ with hf | hf
  · calc rndHE x ≤ ⌊x⌋ + 1 := rndHE_le_floor_add_one x
    _ ≤ ⌊y⌋ := by omega
    _ ≤ rndHE y := rndHE_floor_le y
  · have hfe : ⌊x⌋ = ⌊y⌋ := le_antisymm (Int.floor_le_floor h) hf
    unfold rndHE
    rw [hfe]
    have hd : x - (⌊y⌋ : ℚ) ≤ y - (⌊y⌋ : ℚ) := by linarith
    split_ifs <;> first | omega | linarith

theorem log2_eq (x : ℚ) (hx : 0 < x) (n : ℤ) (h1 : (2 : ℚ) ^ n ≤ x)
    (h2 : x < (2 : ℚ) ^ (n + 1)) : Int.log 2 x = n := by
  have ha : n ≤ Int.log 2 x := (Int.zpow_le_iff_le_log (by norm_num) hx).mp h1
  have hb : Int.log 2 x < n + 1 := (Int.lt_zpow_iff_log_lt (by norm_num) hx).mp h2
  omega

theorem fl_eval (x : ℚ) (e m : ℤ) (hlog : Int.log 2 x = e)
    (hf : ⌊x * 2 ^ ((52 : ℤ) - e)⌋ = m)
    (hlt : x * 2 ^ ((52 : ℤ) - e) - m < 1 / 2) :
    fl x = (m : ℚ) * 2 ^ (e - 52) := by
  unfold fl
  rw [hlog, rndHE_eval _ m hf hlt]

theorem fl_ge (x : ℚ) (hx : 0 < x) : (2 : ℚ) ^ Int.log 2 x ≤ fl x := by
  have h1 : (2 : ℚ) ^ Int.log 2 x ≤ x := Int.zpow_log_le_self (by norm_num) hx
  have h2 : (2 : ℚ) ^ (52 : ℤ) ≤ x * 2 ^ ((52 : ℤ) - Int.log 2 x) := by
    calc (2 : ℚ) ^ (52 : ℤ)
        = 2 ^ Int.log 2 x * 2 ^ ((52 : ℤ) - Int.log 2 x) := by
          rw [← zpow_add₀ (by norm_num : (2 : ℚ) ≠ 0)]
          ring_nf
    _ ≤ x * 2 ^ ((52 : ℤ) - Int.log 2 x) :=
        mul_le_mul_of_nonneg_right h1 (zpow_nonneg (by norm_num) _)
  have h3 : ((2 : ℤ) ^ (52 : ℕ) : ℤ) ≤ ⌊x * 2 ^ ((52 : ℤ) - Int.log 2 x)⌋ := by
    rw [Int.le_floor]
    calc (((2 : ℤ) ^ (52 : ℕ) : ℤ) : ℚ) = (2 : ℚ) ^ (52 : ℤ) := by
          push_cast
          norm_num
    _ ≤ x * 2 ^ ((52 : ℤ) - Int.log 2 x) := h2
  have h4 : ((2 : ℤ) ^ (52 : ℕ) : ℤ) ≤ rndHE (x * 2 ^ ((52 : ℤ) - Int.log 2 x)) :=
    le_trans h3 (rndHE_floor_le _)
  unfold fl
  calc (2 : ℚ) ^ Int.log 2 x
      = ((2 : ℤ) ^ (52 : ℕ) : ℚ) * 2 ^ (Int.log 2 x - 52) := by
        push_cast
        rw [← zpow_natCast (2 : ℚ) 52, ← zpow_add₀ (by norm_num : (2 : ℚ) ≠ 0)]
        ring_nf
  _ ≤ (rndHE (x * 2 ^ ((52 : ℤ) - Int.log 2 x)) : ℚ) * 2 ^ (Int.log 2 x - 52) :=
      mul_le_mul_of_nonneg_right (by exact_mod_cast h4) (zpow_nonneg (by norm_num) _)

theorem fl_le (x : ℚ) : fl x ≤ (2 : ℚ) ^ (Int.log 2 x + 1) := by
  have h1 : x < (2 : ℚ) ^ (Int.log 2 x + 1) := Int.lt_zpow_succ_log_self (by norm_num) x
  have h2 : x * 2 ^ ((52 : ℤ) - Int.log 2 x) < (2 : ℚ) ^ (53 : ℤ) := by
    calc x * 2 ^ ((52 : ℤ) - Int.log 2 x)
        < (2 : ℚ) ^ (Int.log 2 x + 1) * 2 ^ ((52 : ℤ) - Int.log 2 x) :=
          mul_lt_mul_of_pos_right h1 (zpow_pos (by norm_num) _)
    _ = (2 : ℚ) ^ (53 : ℤ) := by
        rw [← zpow_add₀ (by norm_num : (2 : ℚ) ≠ 0)]
        ring_nf
  have h3 : ⌊x * 2 ^ ((52 : ℤ) - Int.log 2 x)⌋ < ((2 : ℤ) ^ (53 : ℕ) : ℤ) := by
    rw [Int.floor_lt]
    calc x * 2 ^ ((52 : ℤ) - Int.log 2 x) < (2 : ℚ) ^ (53 : ℤ) := h2
    _ = (((2 : ℤ) ^ (53 : ℕ) : ℤ) : ℚ) := by
        push_cast
        norm_num
  have h4 : rndHE (x * 2 ^ ((52 : ℤ) - Int.log 2 x)) ≤ ((2 : ℤ) ^ (53 : ℕ) : ℤ) :=
    le_trans (rndHE_le_floor_add_one _) (by omega)
  unfold fl
  calc (rndHE (x * 2 ^ ((52 : ℤ) - Int.log 2 x)) : ℚ) * 2 ^ (Int.log 2 x - 52)
      ≤ ((2 : ℤ) ^ (53 : ℕ) : ℚ) * 2 ^ (Int.log 2 x - 52) :=
        mul_le_mul_of_nonneg_right (by exact_mod_cast h4) (zpow_nonneg (by norm_num) _)
  _ = (2 : ℚ) ^ (Int.log 2 x + 1) := by
      push_cast
      rw [← zpow_natCast (2 : ℚ) 53, ← zpow_add₀ (by norm_num : (2 : ℚ) ≠ 0)]
      ring_nf

theorem fl_pos (x : ℚ) (hx : 0 < x) : 0 < fl x :=
  lt_of_lt_of_le (zpow_pos (by norm_num) _) (fl_ge x hx)

theorem fl_mono (x y : ℚ) (hx : 0 < x) (h : x ≤ y) : fl x ≤ fl y := by
  have hy : (0 : ℚ) < y := lt_of_lt_of_le hx h
  have he : Int.log 2 x ≤ Int.log 2 y := Int.log_mono_right hx h
  rcases eq_or_lt_of_le he with heq | hlt
  · unfold fl
    rw [← heq]
    refine mul_le_mul_of_nonneg_right ?_ (zpow_nonneg (by norm_num) _)
    exact_mod_cast rndHE_mono _ _
      (mul_le_mul_of_nonneg_right h (zpow_nonneg (by norm_num) _))
  · calc fl x ≤ (2 : ℚ) ^ (Int.log 2 x + 1) := fl_le x
    _ ≤ (2 : ℚ) ^ Int.log 2 y := by
        refine zpow_le_zpow_right₀ (by norm_num) ?_
        omega
    _ ≤ fl y := fl_ge y hy

theorem fl_one : fl 1 = 1 := by
  have hlog : Int.log 2 (1 : ℚ) = 0 := Int.log_one_right 2
  have hf : ⌊(1 : ℚ) * 2 ^ ((52 : ℤ) - 0)⌋ = ((4503599627370496 : ℤ)) := by
    rw [Int.floor_eq_iff]
    constructor <;> norm_num
  have h := fl_eval 1 0 4503599627370496 hlog hf (by norm_num)
  rw [h]
  norm_num

theorem fl_hundred : fl 100 = 100 := by
  have hlog : Int.log 2 (100 : ℚ) = 6 :=
    log2_eq 100 (by norm_num) 6 (by norm_num) (by norm_num)
  have hf : ⌊(100 : ℚ) * 2 ^ ((52 : ℤ) - 6)⌋ = ((7036874417766400 : ℤ)) := by
    rw [Int.floor_eq_iff]
    constructor <;> norm_num
  have h := fl_eval 100 6 7036874417766400 hlog hf (by norm_num)
  rw [h]
  norm_num

@[simp] theorem pyProgress_zero (t : Nat) : pyProgress 0 t = 0 := by
  unfold pyProgress
  rcases Nat.eq_zero_or_pos t with ht | ht
  · simp [ht]
  · have hfl0 : fl 0 = 0 := by
      unfold fl
      norm_num [rndHE]
    rw [if_neg (by omega)]
    norm_num [hfl0]

theorem pyProgress_self (t : Nat) (ht : 0 < t) : pyProgress t t = 100 := by
  unfold pyProgress
  rw [if_neg (by omega)]
  rw [div_self (by exact_mod_cast Nat.pos_iff_ne_zero.mp ht : (t : ℚ) ≠ 0)]
  rw [fl_one]
  norm_num [fl_hundred]
  decide

theorem pyProgress_mono (c1 c2 t : Nat) (h : c1 ≤ c2) :
    pyProgress c1 t ≤ pyProgress c2 t := by
  rcases Nat.eq_zero_or_pos t with ht | ht
  · simp [pyProgress, ht]
  · rcases Nat.eq_zero_or_pos c1 with hc | hc
    · rw [hc, pyProgress_zero]
      exact Nat.zero_le _
    · have htq : (0 : ℚ) < (t : ℚ) := by exact_mod_cast ht
      have hx1 : (0 : ℚ) < (c1 : ℚ) / (t : ℚ) := by
        apply div_pos _ htq
        exact_mod_cast hc
      have hcq : (c1 : ℚ) ≤ (c2 : ℚ) := by exact_mod_cast h
      have hx12 : (c1 : ℚ) / (t : ℚ) ≤ (c2 : ℚ) / (t : ℚ) := by gcongr
      have h1 : fl ((c1 : ℚ) / t) ≤ fl ((c2 : ℚ) / t) := fl_mono _ _ hx1 hx12
      have hp1 : (0 : ℚ) < fl ((c1 : ℚ) / t) * 100 := by
        have := fl_pos _ hx1
        linarith
      have h2 : fl ((c1 : ℚ) / t) * 100 ≤ fl ((c2 : ℚ) / t) * 100 := by linarith
      have h3 : fl (fl ((c1 : ℚ) / t) * 100) ≤ fl (fl ((c2 : ℚ) / t) * 100) :=
        fl_mono _ _ hp1 h2
      unfold pyProgress
      rw [if_neg (by omega), if_neg (by omega)]
      exact Int.toNat_le_toNat (Int.floor_le_floor h3)

theorem pyProgress_le_100 (c t : Nat) (h : c ≤ t) : pyProgress c t ≤ 100 := by
  rcases Nat.eq_zero_or_pos t with ht | ht
  · simp [pyProgress, ht]
  · calc pyProgress c t ≤ pyProgress t t := pyProgress_mono c t t h
    _ = 100 := pyProgress_self t ht

/-- The binary64 computation deviates from the exact floor at reachable
inputs: 29 of 50 documents gives `29/50 = 0.58` rounded to the double
`5224175567749775 * 2^-53`, whose product with 100 rounds to
`8162774324609023 * 2^-47 = 57.99999999999999…`, truncating to 57 — while
`floor(100 * 29 / 50) = 58`.  (This matches CPython.) -/
theorem pyProgress_29_50 : pyProgress 29 50 = 57 := by
  have hx : ((29 : ℕ) : ℚ) / ((50 : ℕ) : ℚ) = 29 / 50 := by norm_num
  have hlog1 : Int.log 2 ((29 : ℚ) / 50) = -1 :=
    log2_eq _ (by norm_num) (-1) (by norm_num) (by norm_num)
  have hf1 : ⌊((29 : ℚ) / 50) * 2 ^ ((52 : ℤ) - (-1))⌋ = 5224175567749775 := by
    rw [Int.floor_eq_iff]
    constructor <;> norm_num
  have hfl1 : fl ((29 : ℚ) / 50) = (5224175567749775 : ℚ) * 2 ^ ((-1 : ℤ) - 52) :=
    fl_eval _ (-1) 5224175567749775 hlog1 hf1 (by norm_num)
  have hfl1' : fl ((29 : ℚ) / 50) = 5224175567749775 / 9007199254740992 := by
    rw [hfl1]
    norm_num
  have hlog2 : Int.log 2 ((5224175567749775 : ℚ) / 9007199254740992 * 100) = 5 :=
    log2_eq _ (by norm_num) 5 (by norm_num) (by norm_num)
  have hf2 : ⌊((5224175567749775 : ℚ) / 9007199254740992 * 100)
      * 2 ^ ((52 : ℤ) - 5)⌋ = 8162774324609023 := by
    rw [Int.floor_eq_iff]
    constructor <;> norm_num
  have hfl2 : fl ((5224175567749775 : ℚ) / 9007199254740992 * 100)
      = (8162774324609023 : ℚ) * 2 ^ ((5 : ℤ) - 52) :=
    fl_eval _ 5 8162774324609023 hlog2 hf2 (by norm_num)
  have hfloor : ⌊(8162774324609023 : ℚ) * 2 ^ ((5 : ℤ) - 52)⌋ = 57 := by
    rw [Int.floor_eq_iff]
    constructor <;> norm_num
  unfold pyProgress
  rw [if_neg (by omega), hx, hfl1', hfl2, hfloor]
  decide

/-- The task-row mutation of a successful iteration (tasks.py lines 432-434):
`completed_docs = idx + 1`, `progress = int((completed_docs / total_docs) * 100)`
computed in binary64 as modelled by `pyProgress`. -/
def succTask (t : GenTask) (idx : Nat) : GenTask :=
  { t with completed_docs := idx + 1, progress := pyProgress (idx + 1) t.total_docs }

/-- The task-row mutation of the per-document exception handler
(tasks.py line 439): `error_message` is overwritten. -/
def failTask (t : GenTask) (doc_type err : String) : GenTask :=
  { t with error_message := some (failMsg doc_type err) }

@[simp] theorem succTask_status (t : GenTask) (idx : Nat) :
    (succTask t idx).status = t.status := rfl

@[simp] theorem succTask_total (t : GenTask) (idx : Nat) :
    (succTask t idx).total_docs = t.total_docs := rfl

@[simp] theorem succTask_completed (t : GenTask) (idx : Nat) :
    (succTask t idx).completed_docs = idx + 1 := rfl

@[simp] theorem succTask_progress (t : GenTask) (idx : Nat) :
    (succTask t idx).progress = pyProgress (idx + 1) t.total_docs := rfl

@[simp] theorem succTask_error (t : GenTask) (idx : Nat) :
    (succTask t idx).error_message = t.error_message := rfl

@[simp] theorem failTask_status (t : GenTask) (doc_type err : String) :
    (failTask t doc_type err).status = t.status := rfl

@[simp] theorem failTask_total (t : GenTask) (doc_type err : String) :
    (failTask t doc_type err).total_docs = t.total_docs := rfl

@[simp] theorem failTask_completed (t : GenTask) (doc_type err : String) :
    (failTask t doc_type err).completed_docs = t.completed_docs := rfl

@[simp] theorem failTask_progress (t : GenTask) (doc_type err : String) :
    (failTask t doc_type err).progress = t.progress := rfl

@[simp] theorem failTask_error (t : GenTask) (doc_type err : String) :
    (failTask t doc_type err).error_message = some (failMsg doc_type err) := rfl

/-- The per-document loop of `generate_documents_task`
(tasks.py lines 383-440).  `idx` is the `enumerate` index.  On success the
code updates progress and commits (lines 432-435); on failure it overwrites
`error_message` and commits (lines 437-440); on skip it just continues. -/
def runLoop (user_id application_id : Nat) :
    Nat → LoopSt → List (String × DocOutcome) → LoopSt
  | _, st, [] => st
  | idx, st, (doc_type, out) :: rest =>
    match out with
    | .skip => runLoop user_id application_id (idx + 1) st rest
    | .success content disk_ok =>
      runLoop user_id application_id (idx + 1)
        { task := succTask st.task idx,
          docs := st.docs ++ [docRow user_id application_id doc_type content disk_ok],
          trace := st.trace ++ [succTask st.task idx] } rest
    | .failure err =>
      runLoop user_id application_id (idx + 1)
        { task := failTask st.task doc_type err,
          docs := st.docs,
          trace := st.trace ++ [failTask st.task doc_type err] } rest

/-- Result of one worker invocation: the committed task snapshots in commit
order, the `GeneratedDocument` rows added, the final task row, and the status
of the returned dict. -/
structure WorkerRun where
  trace : List GenTask
  docs : List GenDocument
  final : GenTask
  ret : String
deriving DecidableEq, Repr

/-- The first commit of the worker (tasks.py lines 308-310):
`status = "processing"`, `total_docs = len(doc_types)`; the other fields of
the row are untouched. -/
def processingTask (t0 : GenTask) (n : Nat) : GenTask :=
  { t0 with status := "processing", total_docs := n }

@[simp] theorem processingTask_status (t0 : GenTask) (n : Nat) :
    (processingTask t0 n).status = "processing" := rfl

@[simp] theorem processingTask_total (t0 : GenTask) (n : Nat) :
    (processingTask t0 n).total_docs = n := rfl

@[simp] theorem processingTask_completed (t0 : GenTask) (n : Nat) :
    (processingTask t0 n).completed_docs = t0.completed_docs := rfl

@[simp] theorem processingTask_progress (t0 : GenTask) (n : Nat) :
    (processingTask t0 n).progress = t0.progress := rfl

@[simp] theorem processingTask_error (t0 : GenTask) (n : Nat) :
    (processingTask t0 n).error_message = t0.error_message := rfl

/-- Embeds `generate_documents_task` (tasks.py lines 290-459) for one
invocation.  `task_found`, `app_found`, `cv_ok` are the outcomes of the three
session queries (lines 302-333): if the task row is missing the function
returns without touching the database (lines 302-305); otherwise it commits
`status = "processing"` with `total_docs = len(doc_types)` (lines 308-310),
fails on a missing application or CV (lines 313-318, 323-333), runs the
per-document loop, and finally commits `status = "completed"` with
`progress = 100` unconditionally (lines 442-445). -/
def runWorker (user_id application_id : Nat) (task_found app_found cv_ok : Bool)
    (outcomes : List (String × DocOutcome)) (t0 : GenTask) : WorkerRun :=
  if !task_found then
    { trace := [], docs := [], final := t0, ret := "failed" }
  else
    let t1 := processingTask t0 outcomes.length
    if !app_found then
      let t2 := { t1 with status := "failed", error_message := some "Application not found" }
      { trace := [t1, t2], docs := [], final := t2, ret := "failed" }
    else if !cv_ok then
      let t2 := { t1 with status := "failed", error_message := some "No CV found with text content" }
      { trace := [t1, t2], docs := [], final := t2, ret := "failed" }
    else
      let st := runLoop user_id application_id 0
        { task := t1, docs := [], trace := [t1] } outcomes
      let tf := { st.task with status := "completed", progress := 100 }
      { trace := st.trace ++ [tf], docs := st.docs, final := tf, ret := "completed" }

/-- The rows the loop persists: one per successful outcome, in order. -/
def successRows (user_id application_id : Nat) :
    List (String × DocOutcome) → List GenDocument
  | [] => []
  | (doc_type, .success content disk_ok) :: rest =>
    docRow user_id application_id doc_type content disk_ok
      :: successRows user_id application_id rest
  | _ :: rest => successRows user_id application_id rest

/-- The value `error_message` holds after the loop, starting from `e`: the
message of the last failure, because each failure overwrites the field. -/
def lastErr (outcomes : List (String × DocOutcome)) (e : Option String) :
    Option String :=
  outcomes.foldl
    (fun acc x =>
      match x.2 with
      | .failure err => some (failMsg x.1 err)
      | _ => acc) e

/-! ### The generation endpoint (applications.py, `generate_documents`,
lines 924-1005) -/

/-- Success payload of the endpoint (applications.py lines 997-1005,
the fields the claims speak about). -/
structure GenResponse where
  status : String
  total_documents : Nat
  credits_used : Nat
  remaining_credits : Int
deriving DecidableEq, Repr

/-- Observable outcome of one endpoint call: the raised `HTTPException`
(status code and detail) if any, the user's credit balance after the call,
the `GenerationTask` row created if any, and the returned payload. -/
structure EndpointOutcome where
  http_error : Option (Nat × String)
  credits : Int
  created_task : Option GenTask
  response : Option GenResponse
deriving DecidableEq, Repr

/-- The cost computation of applications.py lines 943-957: the active
template's `credit_cost` per requested doc_type, defaulting to 1 when no
active template exists.  `tmpl_cost` abstracts the `DocumentTemplate` query:
the `credit_cost` of the active template for a doc_type, if one exists. -/
def totalCost (tmpl_cost : String → Option Nat) (doc_types : List String) : Nat :=
  doc_types.foldl (fun acc doc_type => acc + (tmpl_cost doc_type).getD 1) 0

/-- Embeds `generate_documents` (applications.py lines 924-1005).
`app_found` is the ownership-filtered application query (lines 934-941),
`credits` the balance of the `current_user` object loaded for this request,
`cv_ok` whether the latest CV document has extracted text (lines 963-971).
Checks happen in source order: 404, then 402 (line 960), then 400 (line 970);
only then are credits debited (line 974) and the task row created with
`status="pending"`, `total_docs=len(doc_types)`, `completed_docs=0`,
`progress=0` (lines 977-984). -/
def generate_documents (app_found : Bool) (tmpl_cost : String → Option Nat)
    (credits : Int) (cv_ok : Bool) (doc_types : List String) : EndpointOutcome :=
  if !app_found then
    { http_error := some (404, "Application not found"), credits := credits,
      created_task := none, response := none }
  else
    let total_cost := totalCost tmpl_cost doc_types
    if credits < (total_cost : Int) then
      { http_error := some (402, "Insufficient credits. Need " ++ toString total_cost
          ++ ", have " ++ toString credits),
        credits := credits, created_task := none, response := none }
    else if !cv_ok then
      { http_error := some (400, "No CV found with text content"), credits := credits,
        created_task := none, response := none }
    else
      { http_error := none,
        credits := credits - total_cost,
        created_task := some (initialTask doc_types.length),
        response := some { status := "queued", total_documents := doc_types.length,
                           credits_used := total_cost,
                           remaining_credits := credits - total_cost } }

/-! ### Interleaved credit reservation (applications.py lines 959-974)

The generation endpoint checks `current_user.credits < total_cost` against
the user object loaded when the request was authenticated and then assigns
`current_user.credits -= total_cost`, with no `with_for_update()` on that
path (unlike `create_application`, lines 404-421, which does lock).  Two
concurrent requests therefore each (1) read the balance, then (2) check the
read value and, if it passes, write `read value - amount` back.  The model
is a small-step interleaving of such reservation processes. -/

/-- Where one reservation attempt stands: not yet read, read value `v`, or
finished (successfully debited or rejected). -/
inductive ResPhase where
  | start
  | checked (v : Int)
  | done (ok : Bool)
deriving DecidableEq, Repr

/-- Shared balance plus the per-request reservation attempts. -/
structure LedgerState where
  balance : Int
  procs : List ResPhase
deriving DecidableEq, Repr

/-- One step of one reservation attempt: reading takes a snapshot of the
balance; finishing checks the snapshot and on success writes
`snapshot - amount` (the value SQLAlchemy computes from the loaded object). -/
def stepProc (amount balance : Int) : ResPhase → Int × ResPhase
  | .start => (balance, .checked balance)
  | .checked v => if v < amount then (balance, .done false) else (v - amount, .done true)
  | .done ok => (balance, .done ok)

/-- Run the interleaving given by `sched`: each entry picks which process
moves next (out-of-range entries do nothing). -/
def ledgerExec (amount : Int) : LedgerState → List Nat → LedgerState
  | st, [] => st
  | st, i :: rest =>
    match st.procs[i]? with
    | none => ledgerExec amount st rest
    | some p =>
      ledgerExec amount
        { balance := (stepProc amount st.balance p).1,
          procs := st.procs.set i (stepProc amount st.balance p).2 } rest

/-- How many reservation attempts have succeeded. -/
def successCount (st : LedgerState) : Nat :=
  st.procs.countP fun p => p == .done true

/-- One atomic (uninterleaved) reservation: the check-then-debit of
applications.py lines 959-974 run to completion in isolation. -/
def reserveSeq (amount balance : Int) : Int × Bool :=
  if balance < amount then (balance, false) else (balance - amount, true)

/-- `n` atomic reservations one after another: final balance and number of
successes. -/
def seqRun (amount : Int) : Int → Nat → Int × Nat
  | balance, 0 => (balance, 0)
  | balance, n + 1 =>
    let r := reserveSeq amount balance
    let s := seqRun amount r.1 n
    (s.1, s.2 + if r.2 then 1 else 0)

/-! ### Matching-score upsert (tasks.py, `calculate_matching_score_task`,
lines 250-272) and the `MatchingScore` row (models.py lines 112-125) -/

/-- A `MatchingScore` row; `updated_at` is modelled as an abstract `Nat`
timestamp. -/
structure MScore where
  application_id : Nat
  overall_score : Int
  strengths : String
  gaps : String
  recommendations : String
  story : Option String
  updated_at : Nat
deriving DecidableEq, Repr

/-- The parsed LLM JSON result, after the `result.get(..., default)` calls of
tasks.py lines 254-267 (`strengths`/`gaps`/`recommendations` already passed
through `json.dumps`). -/
structure ScoreResult where
  overall_score : Int
  strengths : String
  gaps : String
  recommendations : String
  story : Option String
deriving DecidableEq, Repr

/-- Field updates applied to the existing row at tasks.py lines 254-259. -/
def applyScore (r : ScoreResult) (now : Nat) (s : MScore) : MScore :=
  { s with overall_score := r.overall_score, strengths := r.strengths,
           gaps := r.gaps, recommendations := r.recommendations,
           story := r.story, updated_at := now }

/-- Mutate the first row with the given application id (the row
`db.query(MatchingScore).filter(...).first()` returns), leaving the rest. -/
def updateFirst (application_id : Nat) (f : MScore → MScore) :
    List MScore → List MScore
  | [] => []
  | s :: rest =>
    if s.application_id = application_id then f s :: rest
    else s :: updateFirst application_id f rest

/-- Embeds the save-or-update block of `calculate_matching_score_task`
(tasks.py lines 250-269): look up the existing score; if one exists and
`recalculate`, update it in place; if none exists, insert a new row; if one
exists and not `recalculate`, do nothing. -/
def saveMatchingScore (scores : List MScore) (application_id : Nat)
    (recalculate : Bool) (r : ScoreResult) (now : Nat) : List MScore :=
  match scores.find? (fun s => s.application_id == application_id) with
  | some _ =>
    if recalculate then updateFirst application_id (applyScore r now) scores
    else scores
  | none =>
    scores ++ [{ application_id := application_id,
                 overall_score := r.overall_score, strengths := r.strengths,
                 gaps := r.gaps, recommendations := r.recommendations,
                 story := r.story, updated_at := now }]

/-! ### Lemmas about the per-document loop -/

/-- The invariant the per-document loop maintains on the persisted task
state: `completed_docs` bounded by `total_docs` and `progress` exactly the
value Python's `int((completed_docs / total_docs) * 100)` computes
(`pyProgress`, the binary64 model). -/
def TaskRel (t : GenTask) : Prop :=
  t.completed_docs ≤ t.total_docs ∧
    t.progress = pyProgress t.completed_docs t.total_docs

/-- Observation order used for monotonicity: a later snapshot has at least
the `completed_docs` and `progress` of an earlier one. -/
def obsLe (a b : GenTask) : Prop :=
  a.completed_docs ≤ b.completed_docs ∧ a.progress ≤ b.progress

theorem runLoop_docs (user_id application_id : Nat)
    (l : List (String × DocOutcome)) :
    ∀ (st : LoopSt) (idx : Nat),
      (runLoop user_id application_id idx st l).docs
        = st.docs ++ successRows user_id application_id l := by
  induction l with
  | nil => intro st idx; simp [runLoop, successRows]
  | cons x rest ih =>
    intro st idx
    obtain ⟨d, out⟩ := x
    cases out with
    | skip => simp [runLoop, successRows, ih]
    | success c k => simp [runLoop, successRows, ih]
    | failure e => simp [runLoop, successRows, ih]

theorem runLoop_status (user_id application_id : Nat)
    (l : List (String × DocOutcome)) :
    ∀ (st : LoopSt) (idx : Nat),
      (runLoop user_id application_id idx st l).task.status = st.task.status ∧
      (runLoop user_id application_id idx st l).task.total_docs
        = st.task.total_docs := by
  induction l with
  | nil => intro st idx; simp [runLoop]
  | cons x rest ih =>
    intro st idx
    obtain ⟨d, out⟩ := x
    cases out with
    | skip => simpa [runLoop] using ih st (idx + 1)
    | success c k => simpa [runLoop] using ih _ (idx + 1)
    | failure e => simpa [runLoop] using ih _ (idx + 1)

theorem runLoop_error (user_id application_id : Nat)
    (l : List (String × DocOutcome)) :
    ∀ (st : LoopSt) (idx : Nat),
      (runLoop user_id application_id idx st l).task.error_message
        = lastErr l st.task.error_message := by
  induction l with
  | nil => intro st idx; simp [runLoop, lastErr]
  | cons x rest ih =>
    intro st idx
    obtain ⟨d, out⟩ := x
    cases out with
    | skip => simpa [runLoop, lastErr] using ih st (idx + 1)
    | success c k => simpa [runLoop, lastErr] using ih _ (idx + 1)
    | failure e => simpa [runLoop, lastErr] using ih _ (idx + 1)

theorem runLoop_trace_status (user_id application_id : Nat)
    (l : List (String × DocOutcome)) (s : String) :
    ∀ (st : LoopSt) (idx : Nat), st.task.status = s →
      (∀ t ∈ st.trace, t.status = s) →
      ∀ t ∈ (runLoop user_id application_id idx st l).trace, t.status = s := by
  induction l with
  | nil => intro st idx _ h; simpa [runLoop] using h
  | cons x rest ih =>
    intro st idx hs h
    obtain ⟨d, out⟩ := x
    cases out with
    | skip => exact ih st (idx + 1) hs h
    | success c k =>
      refine ih _ (idx + 1) hs ?_
      intro t ht
      rcases List.mem_append.mp ht with ht | ht
      · exact h t ht
      · simp only [List.mem_singleton] at ht
        subst ht; exact hs
    | failure e =>
      refine ih _ (idx + 1) hs ?_
      intro t ht
      rcases List.mem_append.mp ht with ht | ht
      · exact h t ht
      · simp only [List.mem_singleton] at ht
        subst ht; exact hs


theorem runLoop_rel (user_id application_id : Nat)
    (l : List (String × DocOutcome)) :
    ∀ (st : LoopSt) (idx : Nat),
      st.task.completed_docs ≤ idx →
      idx + l.length ≤ st.task.total_docs →
      TaskRel st.task →
      (∀ t ∈ st.trace, TaskRel t) →
      (∀ t ∈ (runLoop user_id application_id idx st l).trace, TaskRel t) ∧
        TaskRel (runLoop user_id application_id idx st l).task := by
  induction l with
  | nil => intro st idx _ _ hrel htr; exact ⟨htr, hrel⟩
  | cons x rest ih =>
    intro st idx hc hn hrel htr
    obtain ⟨d, out⟩ := x
    simp only [List.length_cons] at hn
    cases out with
    | skip =>
      exact ih st (idx + 1) (Nat.le_succ_of_le hc) (by omega) hrel htr
    | success c k =>
      have hrel2 : TaskRel (succTask st.task idx) := by
        refine ⟨?_, rfl⟩
        show idx + 1 ≤ st.task.total_docs
        omega
      simp only [runLoop]
      refine ih _ (idx + 1) (le_refl _) ?_ hrel2 ?_
      · show idx + 1 + rest.length ≤ st.task.total_docs
        omega
      · intro t ht
        rcases List.mem_append.mp ht with ht | ht
        · exact htr t ht
        · simp only [List.mem_singleton] at ht; subst ht; exact hrel2
    | failure e =>
      have hrel2 : TaskRel (failTask st.task d e) := hrel
      simp only [runLoop]
      refine ih _ (idx + 1) (Nat.le_succ_of_le hc) ?_ hrel2 ?_
      · show idx + 1 + rest.length ≤ st.task.total_docs
        omega
      · intro t ht
        rcases List.mem_append.mp ht with ht | ht
        · exact htr t ht
        · simp only [List.mem_singleton] at ht; subst ht; exact hrel2

theorem runLoop_chain (user_id application_id : Nat)
    (l : List (String × DocOutcome)) :
    ∀ (st : LoopSt) (idx : Nat),
      st.task.completed_docs ≤ idx →
      st.task.progress = pyProgress st.task.completed_docs st.task.total_docs →
      st.trace.getLast? = some st.task →
      st.trace.Chain' obsLe →
      (runLoop user_id application_id idx st l).trace.Chain' obsLe ∧
        (runLoop user_id application_id idx st l).trace.getLast?
          = some (runLoop user_id application_id idx st l).task := by
  induction l with
  | nil => intro st idx _ _ hlast hch; exact ⟨hch, hlast⟩
  | cons x rest ih =>
    intro st idx hc hp hlast hch
    obtain ⟨d, out⟩ := x
    cases out with
    | skip => exact ih st (idx + 1) (Nat.le_succ_of_le hc) hp hlast hch
    | success c k =>
      have hmono : obsLe st.task (succTask st.task idx) := by
        refine ⟨by simpa using Nat.le_succ_of_le hc, ?_⟩
        rw [hp, succTask_progress]
        exact pyProgress_mono _ _ _ (by omega)
      have hch2 : (st.trace ++ [succTask st.task idx]).Chain' obsLe := by
        refine List.chain'_append.mpr ⟨hch, List.chain'_singleton _, ?_⟩
        intro a ha b hb
        simp only [List.head?_cons, Option.mem_def, Option.some.injEq] at hb
        rw [hlast] at ha
        simp only [Option.mem_def, Option.some.injEq] at ha
        subst ha; subst hb; exact hmono
      simp only [runLoop]
      exact ih _ (idx + 1) (le_refl _) rfl (List.getLast?_concat _) hch2
    | failure e =>
      have hmono : obsLe st.task (failTask st.task d e) := ⟨le_refl _, le_refl _⟩
      have hch2 : (st.trace ++ [failTask st.task d e]).Chain' obsLe := by
        refine List.chain'_append.mpr ⟨hch, List.chain'_singleton _, ?_⟩
        intro a ha b hb
        simp only [List.head?_cons, Option.mem_def, Option.some.injEq] at hb
        rw [hlast] at ha
        simp only [Option.mem_def, Option.some.injEq] at ha
        subst ha; subst hb; exact hmono
      simp only [runLoop]
      exact ih _ (idx + 1) (Nat.le_succ_of_le hc) hp (List.getLast?_concat _) hch2

theorem runLoop_concat_success (user_id application_id : Nat)
    (l : List (String × DocOutcome)) (d c : String) (k : Bool) :
    ∀ (st : LoopSt) (idx : Nat),
      (runLoop user_id application_id idx st
          (l ++ [(d, .success c k)])).task.completed_docs
        = idx + l.length + 1 := by
  induction l with
  | nil => intro st idx; simp [runLoop]
  | cons x rest ih =>
    intro st idx
    obtain ⟨d', out⟩ := x
    rw [List.cons_append]
    cases out with
    | skip =>
      show (runLoop user_id application_id (idx + 1) st
        (rest ++ [(d, .success c k)])).task.completed_docs = idx + (rest.length + 1) + 1
      rw [ih st (idx + 1)]; omega
    | success c' k' =>
      show (runLoop user_id application_id (idx + 1) _
        (rest ++ [(d, .success c k)])).task.completed_docs = idx + (rest.length + 1) + 1
      rw [ih _ (idx + 1)]; omega
    | failure e =>
      show (runLoop user_id application_id (idx + 1) _
        (rest ++ [(d, .success c k)])).task.completed_docs = idx + (rest.length + 1) + 1
      rw [ih _ (idx + 1)]; omega

/-! ### Lemmas about the ledger model -/

/-- Invariant of the interleaved reservation system: the shared balance is
non-negative and every snapshot a process has read is non-negative. -/
def LedgerInv (st : LedgerState) : Prop :=
  0 ≤ st.balance ∧ ∀ p ∈ st.procs, ∀ v : Int, p = .checked v → 0 ≤ v

theorem ledgerExec_inv (amount : Int) (sched : List Nat) :
    ∀ st : LedgerState, LedgerInv st → LedgerInv (ledgerExec amount st sched) := by
  induction sched with
  | nil => intro st h; exact h
  | cons i rest ih =>
    intro st h
    obtain ⟨hb, hv⟩ := h
    simp only [ledgerExec]
    cases hget : st.procs[i]? with
    | none => exact ih st ⟨hb, hv⟩
    | some p =>
      have hpmem : p ∈ st.procs := List.getElem?_mem hget
      refine ih _ ⟨?_, ?_⟩
      · cases p with
        | start => exact hb
        | checked w =>
          have hw : 0 ≤ w := hv _ hpmem w rfl
          by_cases hlt : w < amount
          · simpa [stepProc, hlt] using hb
          · simp only [stepProc, if_neg hlt]
            omega
        | done ok => exact hb
      · intro q hq v hqv
        rcases List.mem_or_eq_of_mem_set hq with hq | hq
        · exact hv q hq v hqv
        · subst hq
          cases p with
          | start =>
            simp only [stepProc, ResPhase.checked.injEq] at hqv
            subst hqv; exact hb
          | checked w =>
            by_cases hlt : w < amount
            · simp [stepProc, hlt] at hqv
            · simp [stepProc, hlt] at hqv
          | done ok => simp [stepProc] at hqv

theorem seqRun_le (amount : Int) (n : Nat) :
    ∀ balance : Int, 0 ≤ balance →
      ((seqRun amount balance n).2 : Int) * amount ≤ balance := by
  induction n with
  | zero => intro b hb; simpa [seqRun] using hb
  | succ m ih =>
    intro b hb
    by_cases hlt : b < amount
    · have h1 := ih b hb
      simpa [seqRun, reserveSeq, hlt] using h1
    · have hba : amount ≤ b := not_lt.mp hlt
      have h1 := ih (b - amount) (by omega)
      simp only [seqRun, reserveSeq, if_neg hlt]
      have h2 : (((seqRun amount (b - amount) m).2 + 1 : Nat) : Int) * amount
          = ((seqRun amount (b - amount) m).2 : Int) * amount + amount := by
        push_cast; ring
      simpa [h2] using by linarith

theorem seqRun_floor (amount balance : Int) (n : Nat) (h : 0 < amount)
    (hb : 0 ≤ balance) :
    (seqRun amount balance n).2 ≤ balance.toNat / amount.toNat := by
  have hmul := seqRun_le amount n balance hb
  have hpos : 0 < amount.toNat := by omega
  rw [Nat.le_div_iff_mul_le hpos]
  have hcast : (((seqRun amount balance n).2 * amount.toNat : Nat) : Int)
      = ((seqRun amount balance n).2 : Int) * amount := by
    push_cast
    rw [Int.toNat_of_nonneg h.le]
  have : (((seqRun amount balance n).2 * amount.toNat : Nat) : Int)
      ≤ ((balance.toNat : Nat) : Int) := by
    rw [hcast, Int.toNat_of_nonneg hb]
    exact hmul
  exact_mod_cast this

/-! ### Lemmas about the matching-score upsert -/

theorem updateFirst_length (application_id : Nat) (f : MScore → MScore) :
    ∀ scores : List MScore,
      (updateFirst application_id f scores).length = scores.length := by
  intro scores
  induction scores with
  | nil => rfl
  | cons s rest ih =>
    by_cases hs : s.application_id = application_id
    · simp [updateFirst, hs]
    · simp [updateFirst, hs, ih]

theorem updateFirst_countP (application_id : Nat) (f : MScore → MScore)
    (hf : ∀ s, (f s).application_id = s.application_id) :
    ∀ scores : List MScore,
      (updateFirst application_id f scores).countP
          (fun s => s.application_id == application_id)
        = scores.countP (fun s => s.application_id == application_id) := by
  intro scores
  induction scores with
  | nil => rfl
  | cons s rest ih =>
    by_cases hs : s.application_id = application_id
    · simp [updateFirst, hs, List.countP_cons, hf]
    · simp [updateFirst, hs, List.countP_cons, ih]

theorem saveMatchingScore_count (scores : List MScore) (application_id : Nat)
    (r : ScoreResult) (now : Nat)
    (h : scores.countP (fun s => s.application_id == application_id) ≤ 1) :
    (saveMatchingScore scores application_id true r now).countP
        (fun s => s.application_id == application_id) = 1 := by
  cases hfind : scores.find? (fun s => s.application_id == application_id) with
  | none =>
    have hzero : scores.countP (fun s => s.application_id == application_id) = 0 := by
      rw [List.countP_eq_zero]
      intro s hs
      exact List.find?_eq_none.mp hfind s hs
    simp [saveMatchingScore, hfind, List.countP_append, hzero, List.countP_cons]
  | some s0 =>
    have hmem : s0 ∈ scores := List.mem_of_find?_eq_some hfind
    have hp : (s0.application_id == application_id) = true := by
      simpa using List.find?_some hfind
    have hpos : 0 < scores.countP (fun s => s.application_id == application_id) :=
      List.countP_pos_iff.mpr ⟨s0, hmem, hp⟩
    have hone : scores.countP (fun s => s.application_id == application_id) = 1 := by
      omega
    simp only [saveMatchingScore, hfind, if_true]
    rw [updateFirst_countP application_id (applyScore r now) (fun s => rfl) scores]
    exact hone

/-! ### Remaining helper lemmas -/

theorem successRows_append (user_id application_id : Nat)
    (l1 l2 : List (String × DocOutcome)) :
    successRows user_id application_id (l1 ++ l2)
      = successRows user_id application_id l1
          ++ successRows user_id application_id l2 := by
  induction l1 with
  | nil => simp [successRows]
  | cons x rest ih =>
    obtain ⟨d, out⟩ := x
    cases out with
    | skip => simpa [successRows] using ih
    | success c k => simpa [successRows] using ih
    | failure e => simpa [successRows] using ih

theorem lastErr_some (l : List (String × DocOutcome)) :
    ∀ s : String, (lastErr l (some s)).isSome := by
  induction l with
  | nil => intro s; rfl
  | cons x rest ih =>
    intro s
    obtain ⟨d, out⟩ := x
    cases out with
    | skip => exact ih s
    | success c k => exact ih s
    | failure e => exact ih _

theorem lastErr_isSome (l : List (String × DocOutcome)) :
    ∀ e : Option String, (∃ x ∈ l, ∃ m, x.2 = DocOutcome.failure m) →
      (lastErr l e).isSome := by
  induction l with
  | nil =>
    intro e h
    rcases h with ⟨x, hx, _⟩
    cases hx
  | cons x rest ih =>
    intro e h
    obtain ⟨d, out⟩ := x
    cases out with
    | skip =>
      refine ih e ?_
      rcases h with ⟨y, hy, m, hm⟩
      rcases List.mem_cons.mp hy with hy | hy
      · subst hy; cases hm
      · exact ⟨y, hy, m, hm⟩
    | success c k =>
      refine ih e ?_
      rcases h with ⟨y, hy, m, hm⟩
      rcases List.mem_cons.mp hy with hy | hy
      · subst hy; cases hm
      · exact ⟨y, hy, m, hm⟩
    | failure m => exact lastErr_some rest _

/-! ### Claim theorems -/

/-- C8: prompt building substitutes every occurrence of each supported
placeholder with its mapped value; for the template
"Write for {language} using CV: {cv_text}" with resolved language value
"French" and cv_text "Experienced engineer" the built prompt is exactly
"Write for French using CV: Experienced engineer" (and a template repeating
a placeholder has every occurrence substituted). -/
theorem c8_prompt_builder_exact :
    generate_document_prompt_from_template
        "Write for {language} using CV: {cv_text}" "" "Experienced engineer" "French"
        "No reference letters provided."
      = "Write for French using CV: Experienced engineer"
    ∧ generate_document_prompt_from_template
        "{language} and {language}" "" "cv" "French" ""
      = "French and French" := by
  constructor <;> decide

/-- C1 (counterexample): a task whose single doc_type fails ends with a
final committed state (the completed commit) having `total_docs = 1`,
`completed_docs = 0` but `progress = 100 ≠ floor(100 * 0 / 1)`, refuting the
claim that every persisted state satisfies the progress relation. -/
theorem c1_counterexample :
    (runWorker 1 1 true true true [("COVER_LETTER", DocOutcome.failure "boom")]
        (initialTask 1)).final
      ∈ (runWorker 1 1 true true true [("COVER_LETTER", DocOutcome.failure "boom")]
          (initialTask 1)).trace
    ∧ (runWorker 1 1 true true true [("COVER_LETTER", DocOutcome.failure "boom")]
        (initialTask 1)).final.total_docs = 1
    ∧ (runWorker 1 1 true true true [("COVER_LETTER", DocOutcome.failure "boom")]
        (initialTask 1)).final.completed_docs = 0
    ∧ (runWorker 1 1 true true true [("COVER_LETTER", DocOutcome.failure "boom")]
        (initialTask 1)).final.progress = 100
    ∧ ¬ (runWorker 1 1 true true true [("COVER_LETTER", DocOutcome.failure "boom")]
          (initialTask 1)).final.progress
        = (runWorker 1 1 true true true [("COVER_LETTER", DocOutcome.failure "boom")]
            (initialTask 1)).final.completed_docs * 100
          / (runWorker 1 1 true true true [("COVER_LETTER", DocOutcome.failure "boom")]
              (initialTask 1)).final.total_docs := by
  decide

/-- C1 (amended): for a task with `total_docs > 0`, every persisted state
satisfies `0 ≤ completed_docs ≤ total_docs`; every state persisted by the
per-document loop (all but the final commit) satisfies
`progress = pyProgress completed_docs total_docs`, the value the code's
binary64 computation `int((completed_docs / total_docs) * 100)` produces —
which can differ from the exact `floor(100 * completed_docs / total_docs)`
by one, e.g. 57 against a floor of 58 at 29 of 50 documents; the final
commit sets `progress = 100` unconditionally, and satisfies the relation
when the last requested doc_type succeeded (then
`completed_docs = total_docs` and `pyProgress` gives 100). -/
theorem c1_progress_relation (user_id application_id : Nat)
    (outcomes : List (String × DocOutcome)) (hn : 0 < outcomes.length) :
    (∀ t ∈ (runWorker user_id application_id true true true outcomes
        (initialTask outcomes.length)).trace, t.completed_docs ≤ t.total_docs)
    ∧ (∀ t ∈ (runWorker user_id application_id true true true outcomes
        (initialTask outcomes.length)).trace.dropLast, TaskRel t)
    ∧ (runWorker user_id application_id true true true outcomes
        (initialTask outcomes.length)).final.progress = 100
    ∧ (∀ (l : List (String × DocOutcome)) (d c : String) (k : Bool),
        outcomes = l ++ [(d, DocOutcome.success c k)] →
        TaskRel (runWorker user_id application_id true true true outcomes
          (initialTask outcomes.length)).final)
    ∧ (pyProgress 29 50 = 57 ∧ 29 * 100 / 50 = 58) := by
  have hrel := runLoop_rel user_id application_id outcomes
    ⟨processingTask (initialTask outcomes.length) outcomes.length, [],
      [processingTask (initialTask outcomes.length) outcomes.length]⟩ 0
    (le_refl _) (by simp) ⟨Nat.zero_le _, by simp [initialTask]⟩
    (by
      intro t ht
      simp only [List.mem_singleton] at ht
      subst ht
      exact ⟨Nat.zero_le _, by simp [initialTask]⟩)
  refine ⟨?_, ?_, rfl, ?_, pyProgress_29_50, by norm_num⟩
  · intro t ht
    have ht' : t ∈ (runLoop user_id application_id 0
        ⟨processingTask (initialTask outcomes.length) outcomes.length, [],
          [processingTask (initialTask outcomes.length) outcomes.length]⟩
        outcomes).trace
        ++ [{ (runLoop user_id application_id 0
            ⟨processingTask (initialTask outcomes.length) outcomes.length, [],
              [processingTask (initialTask outcomes.length) outcomes.length]⟩
            outcomes).task with status := "completed", progress := 100 }] := ht
    rcases List.mem_append.mp ht' with h | h
    · exact (hrel.1 t h).1
    · simp only [List.mem_singleton] at h
      subst h
      exact hrel.2.1
  · intro t ht
    have ht' : t ∈ ((runLoop user_id application_id 0
        ⟨processingTask (initialTask outcomes.length) outcomes.length, [],
          [processingTask (initialTask outcomes.length) outcomes.length]⟩
        outcomes).trace
        ++ [{ (runLoop user_id application_id 0
            ⟨processingTask (initialTask outcomes.length) outcomes.length, [],
              [processingTask (initialTask outcomes.length) outcomes.length]⟩
            outcomes).task with status := "completed", progress := 100 }]).dropLast := ht
    rw [List.dropLast_concat] at ht'
    exact hrel.1 t ht'
  · intro l d c k hout
    subst hout
    have hc := runLoop_concat_success user_id application_id l d c k
      ⟨processingTask (initialTask (l ++ [(d, DocOutcome.success c k)]).length)
          (l ++ [(d, DocOutcome.success c k)]).length, [],
        [processingTask (initialTask (l ++ [(d, DocOutcome.success c k)]).length)
          (l ++ [(d, DocOutcome.success c k)]).length]⟩ 0
    have htot := (runLoop_status user_id application_id
      (l ++ [(d, DocOutcome.success c k)])
      ⟨processingTask (initialTask (l ++ [(d, DocOutcome.success c k)]).length)
          (l ++ [(d, DocOutcome.success c k)]).length, [],
        [processingTask (initialTask (l ++ [(d, DocOutcome.success c k)]).length)
          (l ++ [(d, DocOutcome.success c k)]).length]⟩ 0).2
    constructor
    · show (runLoop user_id application_id 0 _ _).task.completed_docs
        ≤ (runLoop user_id application_id 0 _ _).task.total_docs
      rw [hc, htot]
      simp
    · show (100 : Nat) = pyProgress
        (runLoop user_id application_id 0 _ _).task.completed_docs
        (runLoop user_id application_id 0 _ _).task.total_docs
      rw [hc, htot]
      simp only [processingTask_total, List.length_append, List.length_singleton,
        Nat.zero_add]
      exact (pyProgress_self (l.length + 1) (by omega)).symm

/-- C1 (witness): the amended theorem applied to a one-document task that
succeeds. -/
theorem c1_witness :
    (runWorker 1 1 true true true [("A", DocOutcome.success "c" true)]
      (initialTask 1)).final.progress = 100 :=
  (c1_progress_relation 1 1 [("A", DocOutcome.success "c" true)] (by decide)).2.2.1

/-- C7 (counterexample): with two failing doc_types A and B, the task ends
with `error_message` equal to exactly the second failure's message; the
letter A does not occur in it at all, so the first failure is not mentioned —
the handler overwrites instead of appending. -/
theorem c7_counterexample :
    (runWorker 1 1 true true true
        [("A", DocOutcome.failure "e1"), ("B", DocOutcome.failure "e2")]
        (initialTask 2)).final.error_message
      = some "Partial failure: Error generating B: e2"
    ∧ ((runWorker 1 1 true true true
          [("A", DocOutcome.failure "e1"), ("B", DocOutcome.failure "e2")]
          (initialTask 2)).final.error_message.getD "").data.contains 'A' = false := by
  decide

/-- C7 (amended): each per-document failure overwrites `error_message`, so
after the loop `error_message` holds exactly the description of the last
failure (and stays `None` when no doc_type failed). -/
theorem c7_error_overwrite (user_id application_id : Nat)
    (outcomes : List (String × DocOutcome)) :
    (runWorker user_id application_id true true true outcomes
        (initialTask outcomes.length)).final.error_message
      = lastErr outcomes none := by
  show (runLoop user_id application_id 0
      ⟨processingTask (initialTask outcomes.length) outcomes.length, [],
        [processingTask (initialTask outcomes.length) outcomes.length]⟩
      outcomes).task.error_message = lastErr outcomes none
  exact runLoop_error user_id application_id outcomes _ 0

/-- C2: per-document errors never abort the batch: with the task, application
and CV present, the worker always returns and commits status "completed"
(even when every doc_type failed), persists `GeneratedDocument` rows exactly
for the successful doc_types, and records a failure message whenever some
doc_type failed; status "failed" arises exactly when the application or the
CV is missing (a fatal error outside the per-document loop). -/
theorem c2_partial_failure_isolation (user_id application_id : Nat)
    (outcomes : List (String × DocOutcome)) :
    (runWorker user_id application_id true true true outcomes
        (initialTask outcomes.length)).ret = "completed"
    ∧ (runWorker user_id application_id true true true outcomes
        (initialTask outcomes.length)).final.status = "completed"
    ∧ (runWorker user_id application_id true true true outcomes
        (initialTask outcomes.length)).docs
      = successRows user_id application_id outcomes
    ∧ ((∃ x ∈ outcomes, ∃ m, x.2 = DocOutcome.failure m) →
        (runWorker user_id application_id true true true outcomes
          (initialTask outcomes.length)).final.error_message.isSome)
    ∧ (∀ task_found app_found cv_ok : Bool,
        (runWorker user_id application_id task_found app_found cv_ok outcomes
            (initialTask outcomes.length)).final.status = "failed"
          ↔ (task_found = true ∧ (app_found = false ∨ cv_ok = false))) := by
  refine ⟨rfl, rfl, ?_, ?_, ?_⟩
  · show (runLoop user_id application_id 0
        ⟨processingTask (initialTask outcomes.length) outcomes.length, [],
          [processingTask (initialTask outcomes.length) outcomes.length]⟩
        outcomes).docs = successRows user_id application_id outcomes
    simpa using runLoop_docs user_id application_id outcomes
      ⟨processingTask (initialTask outcomes.length) outcomes.length, [],
        [processingTask (initialTask outcomes.length) outcomes.length]⟩ 0
  · intro hfail
    have he : (runWorker user_id application_id true true true outcomes
        (initialTask outcomes.length)).final.error_message = lastErr outcomes none := by
      show (runLoop user_id application_id 0
          ⟨processingTask (initialTask outcomes.length) outcomes.length, [],
            [processingTask (initialTask outcomes.length) outcomes.length]⟩
          outcomes).task.error_message = lastErr outcomes none
      exact runLoop_error user_id application_id outcomes _ 0
    rw [he]
    exact lastErr_isSome outcomes none hfail
  · intro task_found app_found cv_ok
    cases task_found <;> cases app_found <;> cases cv_ok <;>
      simp [runWorker, initialTask]

/-- C2 (witness): the theorem applied to a one-document task whose only
doc_type fails: the task still ends "completed" and the failure is recorded. -/
theorem c2_witness :
    (runWorker 1 1 true true true [("A", DocOutcome.failure "x")]
        (initialTask 1)).ret = "completed"
    ∧ (runWorker 1 1 true true true [("A", DocOutcome.failure "x")]
        (initialTask 1)).final.error_message.isSome :=
  ⟨(c2_partial_failure_isolation 1 1 [("A", DocOutcome.failure "x")]).1,
   (c2_partial_failure_isolation 1 1 [("A", DocOutcome.failure "x")]).2.2.2.1
     ⟨("A", DocOutcome.failure "x"), List.mem_singleton.mpr rfl, "x", rfl⟩⟩

/-- C4 (counterexample): a redelivered task regresses from a terminal state:
the first invocation fails (application missing) and commits "failed"; the
queue retry re-invokes the worker on the same task row, which immediately
commits "processing" again — so the persisted status sequence across the
retry is processing, failed, processing, failed. -/
theorem c4_counterexample :
    ((runWorker 1 1 true false true [] (initialTask 0)).trace
        ++ (runWorker 1 1 true false true []
              ((runWorker 1 1 true false true [] (initialTask 0)).final)).trace).map
        (fun t => t.status)
      = ["processing", "failed", "processing", "failed"] := by
  decide

/-- C4 (amended): within a single worker invocation, the committed states are
monotone: `completed_docs` and `progress` never decrease along the committed
trace, every commit before the last one has status "processing" (a terminal
status is only ever the last commit of the invocation), and the invocation
ends with the terminal commit; regression happens only across queue
retries/redeliveries, which re-enter "processing" (see the counterexample). -/
theorem c4_monotone_within_run (user_id application_id : Nat)
    (outcomes : List (String × DocOutcome)) :
    (runWorker user_id application_id true true true outcomes
        (initialTask outcomes.length)).trace.Chain' obsLe
    ∧ (∀ t ∈ (runWorker user_id application_id true true true outcomes
        (initialTask outcomes.length)).trace.dropLast, t.status = "processing")
    ∧ (runWorker user_id application_id true true true outcomes
        (initialTask outcomes.length)).trace.getLast?
      = some (runWorker user_id application_id true true true outcomes
          (initialTask outcomes.length)).final
    ∧ (runWorker user_id application_id true true true outcomes
        (initialTask outcomes.length)).final.status = "completed" := by
  have hch := runLoop_chain user_id application_id outcomes
    ⟨processingTask (initialTask outcomes.length) outcomes.length, [],
      [processingTask (initialTask outcomes.length) outcomes.length]⟩ 0
    (le_refl _) (by simp [initialTask]) (by simp) (List.chain'_singleton _)
  have hrel := runLoop_rel user_id application_id outcomes
    ⟨processingTask (initialTask outcomes.length) outcomes.length, [],
      [processingTask (initialTask outcomes.length) outcomes.length]⟩ 0
    (le_refl _) (by simp) ⟨Nat.zero_le _, by simp [initialTask]⟩
    (by
      intro t ht
      simp only [List.mem_singleton] at ht
      subst ht
      exact ⟨Nat.zero_le _, by simp [initialTask]⟩)
  refine ⟨?_, ?_, ?_, rfl⟩
  · show ((runLoop user_id application_id 0
        ⟨processingTask (initialTask outcomes.length) outcomes.length, [],
          [processingTask (initialTask outcomes.length) outcomes.length]⟩
        outcomes).trace
        ++ [{ (runLoop user_id application_id 0
            ⟨processingTask (initialTask outcomes.length) outcomes.length, [],
              [processingTask (initialTask outcomes.length) outcomes.length]⟩
            outcomes).task with status := "completed", progress := 100 }]).Chain' obsLe
    refine List.chain'_append.mpr ⟨hch.1, List.chain'_singleton _, ?_⟩
    intro a ha b hb
    simp only [List.head?_cons, Option.mem_def, Option.some.injEq] at hb
    rw [hch.2] at ha
    simp only [Option.mem_def, Option.some.injEq] at ha
    subst ha; subst hb
    refine ⟨le_refl _, ?_⟩
    show (runLoop user_id application_id 0
        ⟨processingTask (initialTask outcomes.length) outcomes.length, [],
          [processingTask (initialTask outcomes.length) outcomes.length]⟩
        outcomes).task.progress ≤ 100
    have h1 := hrel.2
    rw [h1.2]
    exact pyProgress_le_100 _ _ h1.1
  · intro t ht
    have ht' : t ∈ ((runLoop user_id application_id 0
        ⟨processingTask (initialTask outcomes.length) outcomes.length, [],
          [processingTask (initialTask outcomes.length) outcomes.length]⟩
        outcomes).trace
        ++ [{ (runLoop user_id application_id 0
            ⟨processingTask (initialTask outcomes.length) outcomes.length, [],
              [processingTask (initialTask outcomes.length) outcomes.length]⟩
            outcomes).task with status := "completed", progress := 100 }]).dropLast := ht
    rw [List.dropLast_concat] at ht'
    refine runLoop_trace_status user_id application_id outcomes "processing" _ 0 rfl
      ?_ t ht'
    intro u hu
    simp only [List.mem_singleton] at hu
    subst hu; rfl
  · show ((runLoop user_id application_id 0
        ⟨processingTask (initialTask outcomes.length) outcomes.length, [],
          [processingTask (initialTask outcomes.length) outcomes.length]⟩
        outcomes).trace ++ [_]).getLast? = _
    exact List.getLast?_concat _

/-- C9: when the disk write for a generated document fails, the task does not
fail and the document is not lost: the `GeneratedDocument` row is still
created with the full content and the storage marker `unpersisted:<doc_type>`,
the loop continues to the remaining doc_types (their successes are persisted
after it), the run still ends "completed", and when the affected doc_type is
the last one its success still counts toward `completed_docs`. -/
theorem c9_disk_failure_isolation (user_id application_id : Nat)
    (pre post : List (String × DocOutcome)) (d c : String) :
    (runWorker user_id application_id true true true
        (pre ++ [(d, DocOutcome.success c false)] ++ post)
        (initialTask (pre ++ [(d, DocOutcome.success c false)] ++ post).length)).docs
      = successRows user_id application_id pre
          ++ [docRow user_id application_id d c false]
          ++ successRows user_id application_id post
    ∧ (docRow user_id application_id d c false).storage_path = "unpersisted:" ++ d
    ∧ (docRow user_id application_id d c false).content = c
    ∧ (runWorker user_id application_id true true true
        (pre ++ [(d, DocOutcome.success c false)] ++ post)
        (initialTask (pre ++ [(d, DocOutcome.success c false)] ++ post).length)).final.status
      = "completed"
    ∧ (runWorker user_id application_id true true true
        (pre ++ [(d, DocOutcome.success c false)])
        (initialTask (pre ++ [(d, DocOutcome.success c false)]).length)).final.completed_docs
      = pre.length + 1 := by
  refine ⟨?_, rfl, rfl, rfl, ?_⟩
  · show (runLoop user_id application_id 0
        ⟨processingTask
            (initialTask (pre ++ [(d, DocOutcome.success c false)] ++ post).length)
            (pre ++ [(d, DocOutcome.success c false)] ++ post).length, [],
          [processingTask
            (initialTask (pre ++ [(d, DocOutcome.success c false)] ++ post).length)
            (pre ++ [(d, DocOutcome.success c false)] ++ post).length]⟩
        (pre ++ [(d, DocOutcome.success c false)] ++ post)).docs
      = successRows user_id application_id pre
          ++ [docRow user_id application_id d c false]
          ++ successRows user_id application_id post
    rw [runLoop_docs]
    simp only [List.nil_append]
    rw [successRows_append, successRows_append]
    simp [successRows]
  · show (runLoop user_id application_id 0
        ⟨processingTask
            (initialTask (pre ++ [(d, DocOutcome.success c false)]).length)
            (pre ++ [(d, DocOutcome.success c false)]).length, [],
          [processingTask
            (initialTask (pre ++ [(d, DocOutcome.success c false)]).length)
            (pre ++ [(d, DocOutcome.success c false)]).length]⟩
        (pre ++ [(d, DocOutcome.success c false)])).task.completed_docs
      = pre.length + 1
    rw [runLoop_concat_success]
    omega

/-- C3: with the application present, the endpoint rejects with HTTP 402 when
the balance is below the total cost and with HTTP 400 when no CV with
extracted text exists — in both cases with no task row created and the
balance unchanged; on success it debits the total cost and returns status
"queued" with `total_documents = len(doc_types)`, `credits_used` the total
cost and `remaining_credits` the previous balance minus the cost, creating
the pending task row. -/
theorem c3_create_generation_task (tmpl_cost : String → Option Nat)
    (credits : Int) (cv_ok : Bool) (doc_types : List String) :
    (credits < (totalCost tmpl_cost doc_types : Int) →
        generate_documents true tmpl_cost credits cv_ok doc_types
          = { http_error := some (402, "Insufficient credits. Need "
                ++ toString (totalCost tmpl_cost doc_types) ++ ", have "
                ++ toString credits),
              credits := credits, created_task := none, response := none })
    ∧ ((totalCost tmpl_cost doc_types : Int) ≤ credits → cv_ok = false →
        generate_documents true tmpl_cost credits cv_ok doc_types
          = { http_error := some (400, "No CV found with text content"),
              credits := credits, created_task := none, response := none })
    ∧ ((totalCost tmpl_cost doc_types : Int) ≤ credits → cv_ok = true →
        generate_documents true tmpl_cost credits cv_ok doc_types
          = { http_error := none,
              credits := credits - totalCost tmpl_cost doc_types,
              created_task := some (initialTask doc_types.length),
              response := some { status := "queued",
                                 total_documents := doc_types.length,
                                 credits_used := totalCost tmpl_cost doc_types,
                                 remaining_credits
                                   := credits - totalCost tmpl_cost doc_types } }) := by
  refine ⟨?_, ?_, ?_⟩
  · intro h
    simp [generate_documents, h]
  · intro h hcv
    subst hcv
    simp [generate_documents, not_lt.mpr h]
  · intro h hcv
    subst hcv
    simp [generate_documents, not_lt.mpr h]

/-- C3 (witness): the theorem applied to a user with no template configured
(default cost 1 per doc_type): zero credits are rejected with 402, two
credits succeed with one debited. -/
theorem c3_witness :
    generate_documents true (fun _ => none) 0 true ["COVER_LETTER"]
      = { http_error := some (402, "Insufficient credits. Need 1, have 0"),
          credits := 0, created_task := none, response := none }
    ∧ generate_documents true (fun _ => none) 2 true ["COVER_LETTER"]
      = { http_error := none, credits := 1, created_task := some (initialTask 1),
          response := some { status := "queued", total_documents := 1,
                             credits_used := 1, remaining_credits := 1 } } := by
  constructor
  · have h := (c3_create_generation_task (fun _ => none) 0 true ["COVER_LETTER"]).1
      (by decide)
    rw [h]; decide
  · have h := (c3_create_generation_task (fun _ => none) 2 true ["COVER_LETTER"]).2.2
      (by decide) rfl
    rw [h]; decide

/-- C10 (counterexample): an empty doc_types list does not succeed for every
user regardless of balance: a user whose balance is negative is rejected with
HTTP 402 (the check `credits < 0` fires), and a user without a CV with
extracted text is rejected with HTTP 400 — in both cases no task is created. -/
theorem c10_counterexample :
    (generate_documents true (fun _ => none) (-1) true []).http_error.map Prod.fst
      = some 402
    ∧ (generate_documents true (fun _ => none) (-1) true []).created_task = none
    ∧ (generate_documents true (fun _ => none) 5 false []).http_error.map Prod.fst
      = some 400
    ∧ (generate_documents true (fun _ => none) 5 false []).created_task = none := by
  decide

/-- C10 (amended): for a user with a CV with extracted text and a
non-negative balance, an empty doc_types list succeeds: the total cost is 0,
nothing is debited, the task row is created with `total_docs = 0` and
`completed_docs = 0`, and the worker run on it commits exactly the processing
snapshot and the final snapshot (status "completed", progress 100), creating
no `GeneratedDocument` rows — the per-document progress division is never
executed. -/
theorem c10_empty_doc_types (user_id application_id : Nat)
    (tmpl_cost : String → Option Nat) (credits : Int) (hb : 0 ≤ credits) :
    generate_documents true tmpl_cost credits true []
      = { http_error := none, credits := credits,
          created_task := some (initialTask 0),
          response := some { status := "queued", total_documents := 0,
                             credits_used := 0, remaining_credits := credits } }
    ∧ (runWorker user_id application_id true true true [] (initialTask 0)).docs = []
    ∧ (runWorker user_id application_id true true true [] (initialTask 0)).final.status
      = "completed"
    ∧ (runWorker user_id application_id true true true [] (initialTask 0)).final.progress
      = 100
    ∧ (runWorker user_id application_id true true true []
        (initialTask 0)).final.completed_docs = 0
    ∧ (runWorker user_id application_id true true true [] (initialTask 0)).trace.map
        (fun t => (t.status, t.progress))
      = [("processing", 0), ("completed", 100)] := by
  refine ⟨?_, rfl, rfl, rfl, rfl, rfl⟩
  have h0 : totalCost tmpl_cost [] = 0 := rfl
  have hne : ¬ credits < ((totalCost tmpl_cost [] : Nat) : Int) := by
    rw [h0]; push_cast; omega
  simp [generate_documents, hne, h0]
  exact hb

/-- C10 (witness): the amended theorem applied to a user with 7 credits. -/
theorem c10_witness :
    generate_documents true (fun _ => none) 7 true []
      = { http_error := none, credits := 7, created_task := some (initialTask 0),
          response := some { status := "queued", total_documents := 0,
                             credits_used := 0, remaining_credits := 7 } } :=
  (c10_empty_doc_types 1 1 (fun _ => none) 7 (by decide)).1

/-- C5 (counterexample): the generation endpoint's check-then-debit runs
without row-level locking, so two concurrent reservation attempts of amount
1 against balance 1 can both read the stale balance, both pass the check and
both debit: the interleaving read-read-write-write ends with 2 successful
reservations, exceeding floor(1/1) = 1. -/
theorem c5_counterexample :
    successCount (ledgerExec 1 { balance := 1, procs := [ResPhase.start, ResPhase.start] }
        [0, 1, 0, 1]) = 2
    ∧ (1 : Int).toNat / (1 : Int).toNat
      < successCount (ledgerExec 1
          { balance := 1, procs := [ResPhase.start, ResPhase.start] } [0, 1, 0, 1]) := by
  decide

/-- C5 (amended): the check-then-debit is not locked, so interleavings can
admit more than floor(B/A) successful reservations (see the counterexample);
what does hold is that no interleaving ever stores a negative balance (every
write stores a check-passed snapshot minus the amount, which is
non-negative), and that reservations executed atomically, one after another,
succeed at most floor(B/A) times. -/
theorem c5_ledger_bounds (amount balance : Int) (procs : List ResPhase)
    (sched : List Nat) (n : Nat) (hb : 0 ≤ balance)
    (hp : ∀ p ∈ procs, p = ResPhase.start) (ha : 0 < amount) :
    0 ≤ (ledgerExec amount { balance := balance, procs := procs } sched).balance
    ∧ (seqRun amount balance n).2 ≤ balance.toNat / amount.toNat := by
  constructor
  · refine (ledgerExec_inv amount sched _ ⟨hb, ?_⟩).1
    intro p hpp v hv
    rw [hp p hpp] at hv
    simp at hv
  · exact seqRun_floor amount balance n ha hb

/-- C5 (witness): the amended theorem applied to balance 3, amount 1, one
process, and five sequential attempts (at most 3 succeed). -/
theorem c5_witness :
    0 ≤ (ledgerExec 1 { balance := 3, procs := [ResPhase.start] } [0, 0]).balance
    ∧ (seqRun 1 3 5).2 ≤ (3 : Int).toNat / (1 : Int).toNat :=
  c5_ledger_bounds 1 3 [ResPhase.start] [0, 0] 5 (by decide) (by decide) (by decide)

/-- C6: the matching-score save is an upsert keyed by application: when a
score row already exists, running with `recalculate = true` updates that row
in place (same list length, first matching row replaced) instead of
inserting; starting from a state with at most one row per application (the
unique constraint of models.py line 116), one run leaves exactly one row for
the application, and so does running twice with `recalculate = true`. -/
theorem c6_scoring_upsert (scores : List MScore) (application_id : Nat)
    (r r2 : ScoreResult) (now now2 : Nat)
    (huniq : scores.countP (fun s => s.application_id == application_id) ≤ 1) :
    ((scores.find? (fun s => s.application_id == application_id)).isSome →
        saveMatchingScore scores application_id true r now
            = updateFirst application_id (applyScore r now) scores
          ∧ (saveMatchingScore scores application_id true r now).length
            = scores.length)
    ∧ (saveMatchingScore scores application_id true r now).countP
        (fun s => s.application_id == application_id) = 1
    ∧ (saveMatchingScore (saveMatchingScore scores application_id true r now)
          application_id true r2 now2).countP
        (fun s => s.application_id == application_id) = 1 := by
  refine ⟨?_, saveMatchingScore_count scores application_id r now huniq,
    saveMatchingScore_count _ application_id r2 now2
      (le_of_eq (saveMatchingScore_count scores application_id r now huniq))⟩
  intro hsome
  cases hfind : scores.find? (fun s => s.application_id == application_id) with
  | none => rw [hfind] at hsome; simp at hsome
  | some s0 =>
    constructor
    · simp [saveMatchingScore, hfind]
    · simp [saveMatchingScore, hfind, updateFirst_length]

/-- C6 (witness): the theorem applied to a one-row state: recalculation twice
still leaves exactly one row for the application. -/
theorem c6_witness :
    (saveMatchingScore (saveMatchingScore
        [{ application_id := 5, overall_score := 1, strengths := "a", gaps := "b",
           recommendations := "c", story := none, updated_at := 0 }]
        5 true { overall_score := 9, strengths := "s", gaps := "g",
                 recommendations := "r", story := some "t" } 1)
        5 true { overall_score := 4, strengths := "s2", gaps := "g2",
                 recommendations := "r2", story := none } 2).countP
      (fun s => s.application_id == 5) = 1 :=
  (c6_scoring_upsert
    [{ application_id := 5, overall_score := 1, strengths := "a", gaps := "b",
       recommendations := "c", story := none, updated_at := 0 }]
    5 { overall_score := 9, strengths := "s", gaps := "g",
        recommendations := "r", story := some "t" }
    { overall_score := 4, strengths := "s2", gaps := "g2",
      recommendations := "r2", story := none } 1 2 (by decide)).2.2
